import Mathlib

/-!
Verification of jdw-osc-lib (Rust): a typed, tag-addressed sub-protocol on top
of OSC.  The data model and operations below are shallow embeddings of
src/model.rs, src/osc_stack.rs and src/lib.rs.

Modelling conventions:
* Rust `Vec<T>` becomes `List T`; `Result<T, String>` becomes `Except String T`.
* `f32` / `f64` payloads are never computed with by the code under scrutiny
  (they are only matched on and passed through), so they are carried as exact
  rationals (`Rat`).
* rosc's `OscType` has further variants (Blob, Time, Color, Midi, ...) that the
  code only ever touches through catch-all `_` branches and `none`-returning
  accessors; a representative subset of those extra variants is included, all
  flowing through the same catch-all paths.
* Rust `format!` strings are reproduced; the one `{:?}` debug interpolation of
  a whole bundle (model.rs `get_message`/`get_bundle` error text) is abbreviated
  to the bundle's tag, as no claim inspects that error text.
-/

/-- Alias for the builtin string type, usable inside the `OscType` namespace
where the bare name `String` resolves to the constructor `OscType.String`. -/
abbrev Str := String

/-- Alias for the builtin integer type, usable inside the `OscType` namespace
where the bare name `Int` resolves to the constructor `OscType.Int`. -/
abbrev I32 := Int

/-- Alias for the builtin boolean type, usable inside the `OscType` namespace
where the bare name `Bool` resolves to the constructor `OscType.Bool`. -/
abbrev BoolT := Bool

/-- rosc `OscType`: the tagged union of OSC argument values (subset, see header
comment).  `Int` is i32, `Float` is f32, `Long` is i64, `Double` is f64. -/
inductive OscType where
  | Int : Int → OscType
  | Float : Rat → OscType
  | String : String → OscType
  | Long : Int → OscType
  | Double : Rat → OscType
  | Bool : Bool → OscType
  | Nil : OscType
deriving DecidableEq, Repr

/-- rosc `OscType::string(self) -> Option<String>`: Some only on the String
variant, no coercion. -/
def OscType.string : OscType → Option Str
  | OscType.String s => some s
  | _ => none

/-- rosc `OscType::float(self) -> Option<f32>`: Some only on the Float variant,
no coercion. -/
def OscType.float : OscType → Option Rat
  | OscType.Float f => some f
  | _ => none

/-- rosc `OscType::int(self) -> Option<i32>`: Some only on the Int variant,
no coercion. -/
def OscType.int : OscType → Option I32
  | OscType.Int n => some n
  | _ => none

/-- rosc `OscMessage`: address plus ordered argument list. -/
structure OscMessage where
  addr : String
  args : List OscType
deriving DecidableEq, Repr

mutual

/-- rosc `OscPacket`: either a message or a bundle. -/
inductive OscPacket where
  | Message : OscMessage → OscPacket
  | Bundle : OscBundle → OscPacket

/-- rosc `OscBundle`: a timetag (two u32 words, opaque here) and an ordered
sequence of packets. -/
inductive OscBundle where
  | mk : Nat × Nat → List OscPacket → OscBundle

end

/-- The `content` field of rosc `OscBundle`. -/
def OscBundle.content : OscBundle → List OscPacket
  | OscBundle.mk _ c => c

/-- The `timetag` field of rosc `OscBundle`. -/
def OscBundle.timetag : OscBundle → Nat × Nat
  | OscBundle.mk t _ => t

/-- model.rs `validate_args` loop body: scan with the `next_is_string`
expectation flag, failing on any element out of alternation or of a third
type. -/
def validate_args_loop : Bool → List OscType → Except String Unit
  | _, [] => Except.ok ()
  | next_is_string, OscType.Float _ :: rest =>
      if next_is_string then
        Except.error ("Malformed message: Custom arg float where string expected")
      else
        validate_args_loop true rest
  | next_is_string, OscType.String _ :: rest =>
      if !next_is_string then
        Except.error ("Malformed message: Custom arg string where float expected")
      else
        validate_args_loop false rest
  | _, _ :: _ =>
      Except.error ("Malformed message: Custom arg in message not of type string or float")

/-- model.rs `validate_args`: verify that args follow the
String,float,String,float... pattern (`next_is_string` starts true). -/
def validate_args (args : List OscType) : Except String Unit :=
  validate_args_loop true args

/-- model.rs `OscArgHandler::expect_addr` for `OscMessage`. -/
def OscMessage.expect_addr (m : OscMessage) (addr_name : String) : Except String Unit :=
  if m.addr ≠ addr_name then
    Except.error ("Attempted to format " ++ addr_name ++ " as the wrong kind of message - this likely a human error in the source code")
  else
    Except.ok ()

/-- model.rs `OscArgHandler::expect_args` for `OscMessage`. -/
def OscMessage.expect_args (m : OscMessage) (amount : Nat) : Except String String :=
  if m.args.length < amount then
    Except.error ("Message did not contain the " ++ toString amount ++ " first required args.")
  else
    Except.ok ("Ok")

/-- model.rs `OscArgHandler::get_string_at`: `args.get(index)` chained through
`OscType::string()`, with the error message on either failure. -/
def OscMessage.get_string_at (m : OscMessage) (index : Nat) (name : String) : Except String String :=
  match (m.args.get? index).bind OscType.string with
  | some s => Except.ok s
  | none => Except.error (name ++ " string not found as " ++ toString index ++ "th arg")

/-- model.rs `OscArgHandler::get_float_at`: `args.get(index)` chained through
`OscType::float()`. -/
def OscMessage.get_float_at (m : OscMessage) (index : Nat) (name : String) : Except String Rat :=
  match (m.args.get? index).bind OscType.float with
  | some f => Except.ok f
  | none => Except.error (name ++ " float not found as " ++ toString index ++ "th arg")

/-- model.rs `OscArgHandler::get_int_at`: `args.get(index)` chained through
`OscType::int()` (the source's error text says "float", faithfully kept). -/
def OscMessage.get_int_at (m : OscMessage) (index : Nat) (name : String) : Except String Int :=
  match (m.args.get? index).bind OscType.int with
  | some n => Except.ok n
  | none => Except.error (name ++ " float not found as " ++ toString index ++ "th arg")

/-- model.rs `OscArgHandler::get_varargs`: slice from `start_index` (empty when
out of range), validate the String/Float alternation, return the slice. -/
def OscMessage.get_varargs (m : OscMessage) (start_index : Nat) : Except String (List OscType) :=
  let named_args := if m.args.length > start_index then m.args.drop start_index else []
  match validate_args named_args with
  | Except.error e => Except.error e
  | Except.ok _ => Except.ok named_args

/-- model.rs `TaggedBundle`: a semantic tag plus the bundle contents after the
leading info message. -/
structure TaggedBundle where
  bundle_tag : String
  contents : List OscPacket

/-- model.rs `TaggedBundle::new`: element 0 must be a Message addressed
`/bundle_info` whose first argument is a String (the tag); `contents` is
everything after it. -/
def TaggedBundle.new (bundle : OscBundle) : Except String TaggedBundle :=
  match bundle.content.get? 0 with
  | none => Except.error ("Empty bundle")
  | some (OscPacket.Bundle _) => Except.error ("First element in bundle not an info message!")
  | some (OscPacket.Message first_msg) =>
    if first_msg.addr ≠ "/bundle_info" then
      Except.error ("Expected /bundle_info as first message in bundle, got: " ++ first_msg.addr)
    else
      match first_msg.args.get? 0 with
      | none => Except.error ("bundle info empty")
      | some a =>
        match a.string with
        | none => Except.error ("bundle info should be a string")
        | some bundle_tag =>
          Except.ok
            { bundle_tag := bundle_tag
              contents := if bundle.content.length > 1 then bundle.content.drop 1 else [] }

/-- model.rs `TaggedBundle::get_packet`. -/
def TaggedBundle.get_packet (tb : TaggedBundle) (content_index : Nat) : Except String OscPacket :=
  match tb.contents.get? content_index with
  | some pct => Except.ok pct
  | none => Except.error ("Failed to fetch packet")

/-- model.rs `TaggedBundle::get_message`: IndexError when absent, type error
when present but not a Message. -/
def TaggedBundle.get_message (tb : TaggedBundle) (content_index : Nat) : Except String OscMessage :=
  match tb.contents.get? content_index with
  | none => Except.error ("Could not get packet on index " ++ toString content_index ++ " for bundle " ++ tb.bundle_tag)
  | some (OscPacket.Message msg) => Except.ok msg
  | some _ => Except.error ("Not a message")

/-- model.rs `TaggedBundle::get_bundle`: IndexError when absent, type error
when present but not a Bundle. -/
def TaggedBundle.get_bundle (tb : TaggedBundle) (content_index : Nat) : Except String OscBundle :=
  match tb.contents.get? content_index with
  | none => Except.error ("Could not get packet on index " ++ toString content_index ++ " for bundle " ++ tb.bundle_tag)
  | some (OscPacket.Bundle b) => Except.ok b
  | some _ => Except.error ("Not a bundle")

/-- Natural-number value of a digit-character list (meaningful only when every
character is a decimal digit). -/
def digitsVal (cs : List Char) : Nat :=
  cs.foldl (fun a c => a * 10 + (c.toNat - 48)) 0

/-- Split a character list at every occurrence of the decimal point. -/
def splitOnDot : List Char → List (List Char)
  | [] => [[]]
  | c :: rest =>
    if c = '.' then [] :: splitOnDot rest
    else
      match splitOnDot rest with
      | [] => [[c]]
      | h :: t => (c :: h) :: t

/-- Modelled from the spec: the arbitrary-precision decimal parser consumed
from the external `bigdecimal` crate is out of scope of the source
("arbitrary-precision decimal parsing (consumed, not implemented)");
per the spec it "parses an arbitrary-precision decimal; fails (ParseError) on
non-numeric text".  Accepts an optional sign and decimal digits with at most
one decimal point; rejects anything else.  The value is an exact rational. -/
def bigDecimalFromStr (s : String) : Option Rat :=
  let cs := s.data
  let neg : Bool := match cs with | '-' :: _ => true | _ => false
  let unsigned : List Char :=
    match cs with
    | '-' :: t => t
    | '+' :: t => t
    | t => t
  match splitOnDot unsigned with
  | [ip] =>
    if 0 < ip.length && ip.all Char.isDigit then
      some (if neg then -(digitsVal ip : Rat) else (digitsVal ip : Rat))
    else
      none
  | [ip, fp] =>
    if (0 < ip.length || 0 < fp.length) && (ip ++ fp).all Char.isDigit then
      some ((if neg then -(digitsVal (ip ++ fp) : Rat) else (digitsVal (ip ++ fp) : Rat)) / 10 ^ fp.length)
    else
      none
  | _ => none

namespace LibRs

/-!
Embedding of src/lib.rs, the earlier flat generation of the crate.  Its
`OscArgHandler` impl and `TaggedBundle` are textually identical to the model.rs
ones embedded above (up to the error text of `get_message`/`get_bundle`), so
those are reused; only the declarations whose body differs are re-embedded
here.  The significant difference is `TimedOSCPacket`: lib.rs stores the time
as an f32 read with `get_float_at`, where model.rs stores a BigDecimal parsed
from a String argument.
-/

/-- lib.rs `TaggedBundle::get_message` (differs from model.rs only in the
IndexError text). -/
def get_message (tb : TaggedBundle) (content_index : Nat) : Except String OscMessage :=
  match tb.contents.get? content_index with
  | none => Except.error ("Invalid index")
  | some (OscPacket.Message msg) => Except.ok msg
  | some _ => Except.error ("Not a message")

/-- lib.rs `TimedOSCPacket`: an f32 relative time plus the wrapped packet. -/
structure TimedOSCPacket where
  time : Rat
  packet : OscPacket

/-- lib.rs `TimedOSCPacket::from_bundle`: require tag "timed_msg", read
contents[0] as the `/timed_msg_info` message, contents[1] as the wrapped
packet, and the time as a float first argument. -/
def TimedOSCPacket.from_bundle (bundle : TaggedBundle) : Except String TimedOSCPacket :=
  if bundle.bundle_tag ≠ "timed_msg" then
    Except.error ("Attempted to parse " ++ bundle.bundle_tag ++ " as timed_msg bundle")
  else
    match LibRs.get_message bundle 0 with
    | Except.error e => Except.error e
    | Except.ok info_msg =>
      match bundle.get_packet 1 with
      | Except.error e => Except.error e
      | Except.ok packet =>
        match info_msg.expect_addr "/timed_msg_info" with
        | Except.error e => Except.error e
        | Except.ok _ =>
          match info_msg.get_float_at 0 "time" with
          | Except.error e => Except.error e
          | Except.ok time => Except.ok { time := time, packet := packet }

end LibRs

/-- model.rs `TimedOSCPacket`: a BigDecimal relative time (exact rational
here) plus the wrapped packet. -/
structure TimedOSCPacket where
  time : Rat
  packet : OscPacket

/-- model.rs `TimedOSCPacket::from_bundle`: require tag "timed_msg", read
contents[0] as the `/timed_msg_info` message, contents[1] as the wrapped
packet, read the time as a String first argument and parse it with
`BigDecimal::from_str(..).unwrap()`.  The `.unwrap()` aborts the process when
the parse fails, modelled as the `none` outcome of the `Option` layer; every
`some` outcome is the function's ordinary `Result`. -/
def TimedOSCPacket.from_bundle (bundle : TaggedBundle) : Option (Except String TimedOSCPacket) :=
  if bundle.bundle_tag ≠ "timed_msg" then
    some (Except.error ("Attempted to parse " ++ bundle.bundle_tag ++ " as timed_msg bundle"))
  else
    match bundle.get_message 0 with
    | Except.error e => some (Except.error e)
    | Except.ok info_msg =>
      match bundle.get_packet 1 with
      | Except.error e => some (Except.error e)
      | Except.ok packet =>
        match info_msg.expect_addr "/timed_msg_info" with
        | Except.error e => some (Except.error e)
        | Except.ok _ =>
          match info_msg.get_string_at 0 "time" with
          | Except.error e => some (Except.error e)
          | Except.ok time_str =>
            match bigDecimalFromStr time_str with
            | none => none
            | some time => some (Except.ok { time := time, packet := packet })

/-- A handler invocation recorded during dispatch: `msg a m` is the invocation
of the message handler registered under address `a` with argument `m`;
`tbundle t tb` is the invocation of the tagged-bundle handler registered under
tag `t` with argument `tb`. -/
inductive Event where
  | msg : String → OscMessage → Event
  | tbundle : String → TaggedBundle → Event

/-- osc_stack.rs `OSCStack` dispatch table.  The handler maps keyed by message
address / bundle tag hold opaque closures whose only observable effect is
their invocation, recorded here as an `Event`; the table is therefore embedded
as its registration predicates (`message_operations a = true` iff a handler is
registered under address `a`, registration being last-write-wins so the key
identifies the handler).  The transport field `host_url` and the receive loop
`begin` are configuration and IO outside the routing algorithm. -/
structure OSCStack where
  message_operations : String → Bool
  tbundle_operations : String → Bool
  tbundle_funnels : String → Bool

/-- osc_stack.rs `OSCStack::interpret`, with handler invocations reified as
the returned event trace (in invocation order): a Message is dispatched to the
handler under its address when registered; a Bundle is decoded as a
TaggedBundle (on failure a warning is logged and the packet dropped), then
either funneled (each content packet interpreted recursively, in order) or
dispatched to the handler under its tag when registered. -/
def interpret (s : OSCStack) (packet : OscPacket) : List Event :=
  match packet with
  | OscPacket.Message osc_msg =>
    if s.message_operations osc_msg.addr then [Event.msg osc_msg.addr osc_msg] else []
  | OscPacket.Bundle osc_bundle =>
    match h : TaggedBundle.new osc_bundle with
    | Except.ok tagged_bundle =>
      if s.tbundle_funnels tagged_bundle.bundle_tag then
        (tagged_bundle.contents.attach.map (fun x => interpret s x.val)).flatten
      else if s.tbundle_operations tagged_bundle.bundle_tag then
        [Event.tbundle tagged_bundle.bundle_tag tagged_bundle]
      else
        []
    | Except.error _ => []
termination_by sizeOf packet
decreasing_by
  simp_wf
  obtain ⟨p, hp⟩ := x
  obtain ⟨t, c⟩ := osc_bundle
  have hc : tagged_bundle.contents = if c.length > 1 then c.drop 1 else [] := by
    simp only [TaggedBundle.new, OscBundle.content] at h
    split at h
    · exact absurd h (by simp)
    · exact absurd h (by simp)
    · split at h
      · exact absurd h (by simp)
      · split at h
        · exact absurd h (by simp)
        · split at h
          · exact absurd h (by simp)
          · cases h
            rfl
  rw [hc] at hp
  have h1 : sizeOf p < sizeOf c := by
    by_cases hl : c.length > 1
    · rw [if_pos hl] at hp
      exact List.sizeOf_lt_of_mem (List.drop_subset 1 c hp)
    · rw [if_neg hl] at hp
      exact absurd hp (List.not_mem_nil p)
  simp only [OscPacket.Bundle.sizeOf_spec, OscBundle.mk.sizeOf_spec]
  omega

/-- Variant test used to phrase the alternation property of the spec: is the
value String-typed? -/
def OscType.isString : OscType → BoolT
  | OscType.String _ => true
  | _ => false

/-- Variant test used to phrase the alternation property of the spec: is the
value Float-typed? -/
def OscType.isFloat : OscType → BoolT
  | OscType.Float _ => true
  | _ => false

/-- The spec's vararg shape, stated independently of the scanning code: the
slice strictly alternates String, Float, String, Float, ... starting with
String, i.e. every even position holds a String and every odd position a
Float; the empty slice is valid. -/
def AlternatesSF (l : List OscType) : Prop :=
  ∀ i a, l.get? i = some a →
    if i % 2 = 0 then a.isString = true else a.isFloat = true

/-- Concrete dispatch table exercising the claim theorems: message handlers
registered under "/s_new" and "/bundle_info", tagged-bundle handlers under
"queue" and "record", with "queue" funneled. -/
def exStack : OSCStack :=
  { message_operations := fun a => a == "/s_new" || a == "/bundle_info"
    tbundle_operations := fun t => t == "queue" || t == "record"
    tbundle_funnels := fun t => t == "queue" }

/-- Concrete payload message. -/
def exMsg : OscMessage := { addr := "/s_new", args := [] }

/-- Concrete leading info message declaring the given bundle tag. -/
def exInfo (tag : String) : OscPacket :=
  OscPacket.Message { addr := "/bundle_info", args := [OscType.String tag] }

/-- Concrete bundle carrying the given tag and one payload message. -/
def exBundle (tag : String) : OscBundle :=
  OscBundle.mk (0, 0) [exInfo tag, OscPacket.Message exMsg]

/-!  Helper lemmas (shared infrastructure for the claim theorems below). -/

/-- On success `TaggedBundle::new` yields exactly the tail of the bundle's
content (the `[]` branch of the source only triggers when `drop 1` is `[]`). -/
theorem TaggedBundle.contents_of_new_ok {b : OscBundle} {tb : TaggedBundle}
    (h : TaggedBundle.new b = Except.ok tb) : tb.contents = b.content.drop 1 := by
  unfold TaggedBundle.new at h
  split at h
  · exact absurd h (by simp)
  · exact absurd h (by simp)
  · split at h
    · exact absurd h (by simp)
    · split at h
      · exact absurd h (by simp)
      · split at h
        · exact absurd h (by simp)
        · cases h
          by_cases hl : b.content.length > 1
          · simp [hl]
          · simp only [hl, if_false]
            exact (List.drop_eq_nil_of_le (by omega)).symm

/-- A bundle's content list is sizeOf-smaller than the packet wrapping the
bundle. -/
theorem sizeOf_content_lt (b : OscBundle) :
    sizeOf b.content < sizeOf (OscPacket.Bundle b) := by
  obtain ⟨t, c⟩ := b
  simp only [OscBundle.content, OscPacket.Bundle.sizeOf_spec, OscBundle.mk.sizeOf_spec]
  omega

/-- Unfolding of `interpret` on a message packet. -/
theorem interpret_message_eq (s : OSCStack) (m : OscMessage) :
    interpret s (OscPacket.Message m) =
      if s.message_operations m.addr then [Event.msg m.addr m] else [] := by
  rw [interpret]

/-- Unfolding of `interpret` on a bundle packet that decodes as a
TaggedBundle. -/
theorem interpret_bundle_ok_eq (s : OSCStack) {b : OscBundle} {tb : TaggedBundle}
    (h : TaggedBundle.new b = Except.ok tb) :
    interpret s (OscPacket.Bundle b) =
      if s.tbundle_funnels tb.bundle_tag then
        (tb.contents.map (interpret s)).flatten
      else if s.tbundle_operations tb.bundle_tag then
        [Event.tbundle tb.bundle_tag tb]
      else
        [] := by
  rw [interpret]
  split
  next tb2 heq =>
    rw [h] at heq
    cases heq
    rw [List.attach_map_val]
  next e heq =>
    rw [h] at heq
    exact absurd heq (by simp)

/-- Unfolding of `interpret` on a bundle packet that fails TaggedBundle
decoding. -/
theorem interpret_bundle_error_eq (s : OSCStack) {b : OscBundle} {e : String}
    (h : TaggedBundle.new b = Except.error e) :
    interpret s (OscPacket.Bundle b) = [] := by
  rw [interpret]
  split
  next tb2 heq =>
    rw [h] at heq
    exact absurd heq (by simp)
  next e2 heq => rfl

/-- When a tag is funneled, no invocation of a tagged-bundle handler under
that tag ever appears in the trace of `interpret`, at any recursion depth
(funneling strictly precedes tag-handler lookup, recursively). -/
theorem funneled_tag_handler_never_invoked (s : OSCStack) (T : String)
    (hT : s.tbundle_funnels T = true) :
    ∀ (n : Nat) (p : OscPacket), sizeOf p ≤ n →
      ∀ tb2, Event.tbundle T tb2 ∉ interpret s p := by
  intro n
  induction n with
  | zero =>
    intro p hp
    exfalso
    cases p <;> simp_arith [OscPacket.Message.sizeOf_spec, OscPacket.Bundle.sizeOf_spec] at hp
  | succ n ih =>
    intro p hp tb2
    cases p with
    | Message m =>
      rw [interpret_message_eq]
      split <;> simp
    | Bundle b =>
      cases hb : TaggedBundle.new b with
      | ok tb =>
        rw [interpret_bundle_ok_eq s hb]
        by_cases hf : s.tbundle_funnels tb.bundle_tag = true
        · rw [if_pos hf]
          intro hmem
          rw [List.mem_flatten] at hmem
          obtain ⟨l, hl, hev⟩ := hmem
          rw [List.mem_map] at hl
          obtain ⟨q, hq, rfl⟩ := hl
          have hsz : sizeOf q ≤ n := by
            have h1 := List.sizeOf_lt_of_mem hq
            rw [TaggedBundle.contents_of_new_ok hb] at hq
            have h2 := List.sizeOf_lt_of_mem (List.drop_subset 1 b.content hq)
            have h3 := sizeOf_content_lt b
            omega
          exact ih q hsz tb2 hev
        · rw [if_neg hf]
          split
          · intro hmem
            rw [List.mem_singleton] at hmem
            injection hmem with hTeq htbeq
            rw [hTeq] at hT
            exact hf hT
          · simp
      | error e =>
        rw [interpret_bundle_error_eq s hb]
        simp

/-- `OscType::string()` answers `some` exactly on the String variant. -/
theorem OscType.string_eq_some {a : OscType} {s : Str} :
    a.string = some s ↔ a = OscType.String s := by
  cases a <;> simp [OscType.string]

/-- `OscType::float()` answers `some` exactly on the Float variant. -/
theorem OscType.float_eq_some {a : OscType} {f : Rat} :
    a.float = some f ↔ a = OscType.Float f := by
  cases a <;> simp [OscType.float]

/-- `OscType::int()` answers `some` exactly on the Int variant. -/
theorem OscType.int_eq_some {a : OscType} {n : I32} :
    a.int = some n ↔ a = OscType.Int n := by
  cases a <;> simp [OscType.int]

/-- The guarded slice of the source (`if len > k then v[k..] else vec![]`)
is just `drop k`. -/
theorem if_slice_eq_drop {α : Type} (l : List α) (k : Nat) :
    (if l.length > k then l.drop k else []) = l.drop k := by
  by_cases h : l.length > k
  · rw [if_pos h]
  · rw [if_neg h]
    exact (List.drop_eq_nil_of_le (by omega)).symm

/-- Full success characterization of `TaggedBundle::new`. -/
theorem TaggedBundle.new_ok_iff {b : OscBundle} {tb : TaggedBundle} :
    TaggedBundle.new b = Except.ok tb ↔
      ∃ m s, b.content.get? 0 = some (OscPacket.Message m) ∧
        m.addr = "/bundle_info" ∧ m.args.get? 0 = some (OscType.String s) ∧
        tb.bundle_tag = s ∧ tb.contents = b.content.drop 1 := by
  constructor
  · intro h
    have hc := TaggedBundle.contents_of_new_ok h
    unfold TaggedBundle.new at h
    split at h
    · exact absurd h (by simp)
    · exact absurd h (by simp)
    next first_msg heq =>
      split at h
      · exact absurd h (by simp)
      next haddr =>
        split at h
        · exact absurd h (by simp)
        next a harg =>
          split at h
          · exact absurd h (by simp)
          next s hs =>
            cases h
            refine ⟨first_msg, s, heq, ?_, ?_, rfl, hc⟩
            · by_contra hne
              exact haddr hne
            · rw [OscType.string_eq_some] at hs
              rw [hs] at harg
              exact harg
  · rintro ⟨m, s, h0, haddr, harg, htag, hcont⟩
    unfold TaggedBundle.new
    split
    next h0x => rw [h0] at h0x; exact absurd h0x (by simp)
    next bnd h0x => rw [h0] at h0x; exact absurd h0x (by simp)
    next first_msg h0x =>
      rw [h0] at h0x
      injection h0x with h0x
      injection h0x with h0x
      subst h0x
      rw [if_neg (by simp [haddr])]
      split
      next hax => rw [harg] at hax; exact absurd hax (by simp)
      next a hax =>
        rw [harg] at hax
        injection hax with hax
        subst hax
        simp only [OscType.string]
        rw [if_slice_eq_drop]
        cases tb
        simp only at htag hcont
        rw [htag, hcont]

/-- Characterization of the `validate_args` scanning loop, generalized over
the expectation flag expressed as a parity `k` (the number of elements already
consumed): starting with flag `k % 2 = 0`, success means position `i` of the
remainder holds a String when `k + i` is even and a Float when it is odd. -/
theorem validate_args_loop_ok_iff (l : List OscType) (k : Nat) :
    validate_args_loop (decide (k % 2 = 0)) l = Except.ok () ↔
      ∀ i a, l.get? i = some a →
        if (k + i) % 2 = 0 then a.isString = true else a.isFloat = true := by
  induction l generalizing k with
  | nil => simp [validate_args_loop]
  | cons x xs ih =>
    cases x
    case String s =>
      by_cases hk : k % 2 = 0
      · have hd : decide (k % 2 = 0) = true := by
          simpa using hk
        have hd2 : decide ((k + 1) % 2 = 0) = false := by
          simp only [decide_eq_false_iff_not]
          omega
        have h1 : validate_args_loop (decide (k % 2 = 0)) (OscType.String s :: xs)
            = validate_args_loop (decide ((k + 1) % 2 = 0)) xs := by
          rw [hd, hd2]
          rfl
        rw [h1, ih (k + 1)]
        constructor
        · intro H i a hi
          cases i with
          | zero =>
            rw [List.get?_cons_zero] at hi
            injection hi with hi
            subst hi
            have hcond : (k + 0) % 2 = 0 := by omega
            rw [if_pos hcond]
            rfl
          | succ j =>
            rw [List.get?_cons_succ] at hi
            have hj := H j a hi
            have harith : k + (j + 1) = k + 1 + j := by omega
            rw [harith]
            exact hj
        · intro H i a hi
          have hj := H (i + 1) a (by rw [List.get?_cons_succ]; exact hi)
          have harith : k + 1 + i = k + (i + 1) := by omega
          rw [harith]
          exact hj
      · have hd : decide (k % 2 = 0) = false := by
          simpa using hk
        have h1 : validate_args_loop (decide (k % 2 = 0)) (OscType.String s :: xs)
            = Except.error ("Malformed message: Custom arg string where float expected") := by
          rw [hd]
          rfl
        rw [h1]
        refine ⟨fun H => absurd H (by simp), fun H => ?_⟩
        have h0 := H 0 (OscType.String s) rfl
        rw [if_neg (by omega)] at h0
        exact absurd h0 (by simp [OscType.isFloat])
    case Float f =>
      by_cases hk : k % 2 = 0
      · have hd : decide (k % 2 = 0) = true := by
          simpa using hk
        have h1 : validate_args_loop (decide (k % 2 = 0)) (OscType.Float f :: xs)
            = Except.error ("Malformed message: Custom arg float where string expected") := by
          rw [hd]
          rfl
        rw [h1]
        refine ⟨fun H => absurd H (by simp), fun H => ?_⟩
        have h0 := H 0 (OscType.Float f) rfl
        rw [if_pos (by omega)] at h0
        exact absurd h0 (by simp [OscType.isString])
      · have hd : decide (k % 2 = 0) = false := by
          simpa using hk
        have hd2 : decide ((k + 1) % 2 = 0) = true := by
          simp only [decide_eq_true_eq]
          omega
        have h1 : validate_args_loop (decide (k % 2 = 0)) (OscType.Float f :: xs)
            = validate_args_loop (decide ((k + 1) % 2 = 0)) xs := by
          rw [hd, hd2]
          rfl
        rw [h1, ih (k + 1)]
        constructor
        · intro H i a hi
          cases i with
          | zero =>
            rw [List.get?_cons_zero] at hi
            injection hi with hi
            subst hi
            have hcond : ¬ ((k + 0) % 2 = 0) := by omega
            rw [if_neg hcond]
            rfl
          | succ j =>
            rw [List.get?_cons_succ] at hi
            have hj := H j a hi
            have harith : k + (j + 1) = k + 1 + j := by omega
            rw [harith]
            exact hj
        · intro H i a hi
          have hj := H (i + 1) a (by rw [List.get?_cons_succ]; exact hi)
          have harith : k + 1 + i = k + (i + 1) := by omega
          rw [harith]
          exact hj
    all_goals
      exact ⟨fun H => absurd H (by simp [validate_args_loop]),
        fun H => absurd (H 0 _ rfl)
          (by split <;> simp [OscType.isString, OscType.isFloat])⟩

/-- `validate_args` succeeds exactly on argument lists alternating String,
Float, String, Float, ... starting with String (the empty list is valid). -/
theorem validate_args_ok_iff (l : List OscType) :
    validate_args l = Except.ok () ↔ AlternatesSF l := by
  have h := validate_args_loop_ok_iff l 0
  simpa [validate_args, AlternatesSF] using h

/-- C1: `interpret` on `Packet::Message(M)` invokes the handler registered
under the exact address `M.addr`, exactly once, passing it a value equal to M,
iff such a handler is registered; if none is registered, no handler is invoked
at all: the trace is the singleton invocation under `M.addr` with argument M
when registered, and empty otherwise. -/
theorem C1_interpret_message (s : OSCStack) (m : OscMessage) :
    interpret s (OscPacket.Message m) =
      if s.message_operations m.addr then [Event.msg m.addr m] else [] :=
  interpret_message_eq s m

/-- C2: `TaggedBundle::new b` succeeds iff `b.content` is non-empty, element 0
is a Message whose address equals "/bundle_info" exactly, and that message's
first argument exists and is String-typed; on success `bundle_tag` is that
string and `contents` are all elements of `b.content` after the first
(possibly empty); on any other input it returns an error. -/
theorem C2_tagged_bundle_new_characterization (b : OscBundle) :
    ((∃ tb, TaggedBundle.new b = Except.ok tb) ↔
      (∃ m s, b.content.get? 0 = some (OscPacket.Message m) ∧
        m.addr = "/bundle_info" ∧ m.args.get? 0 = some (OscType.String s)))
  ∧ (∀ tb, TaggedBundle.new b = Except.ok tb →
      ∃ m s, b.content.get? 0 = some (OscPacket.Message m) ∧
        m.addr = "/bundle_info" ∧ m.args.get? 0 = some (OscType.String s) ∧
        tb.bundle_tag = s ∧ tb.contents = b.content.drop 1)
  ∧ ((¬ ∃ m s, b.content.get? 0 = some (OscPacket.Message m) ∧
        m.addr = "/bundle_info" ∧ m.args.get? 0 = some (OscType.String s)) →
      ∃ e, TaggedBundle.new b = Except.error e) := by
  refine ⟨⟨?_, ?_⟩, ?_, ?_⟩
  · rintro ⟨tb, htb⟩
    obtain ⟨m, s, h0, ha, hg, _, _⟩ := TaggedBundle.new_ok_iff.mp htb
    exact ⟨m, s, h0, ha, hg⟩
  · rintro ⟨m, s, h0, ha, hg⟩
    exact ⟨⟨s, b.content.drop 1⟩, TaggedBundle.new_ok_iff.mpr ⟨m, s, h0, ha, hg, rfl, rfl⟩⟩
  · intro tb htb
    exact TaggedBundle.new_ok_iff.mp htb
  · intro hnot
    cases hnew : TaggedBundle.new b with
    | ok tb =>
      obtain ⟨m, s, h0, ha, hg, _, _⟩ := TaggedBundle.new_ok_iff.mp hnew
      exact absurd ⟨m, s, h0, ha, hg⟩ hnot
    | error e => exact ⟨e, rfl⟩

/-- C2 witness: the characterization applied to the concrete bundle tagged
"record". -/
theorem C2_witness :
    TaggedBundle.new (exBundle "record")
      = Except.ok { bundle_tag := "record", contents := [OscPacket.Message exMsg] }
  ∧ (∃ m s, (exBundle "record").content.get? 0 = some (OscPacket.Message m) ∧
      m.addr = "/bundle_info" ∧ m.args.get? 0 = some (OscType.String s))
  ∧ ({ bundle_tag := "record", contents := [OscPacket.Message exMsg] } : TaggedBundle).contents
      = (exBundle "record").content.drop 1 := by
  have hthm := C2_tagged_bundle_new_characterization (exBundle "record")
  refine ⟨rfl, hthm.1.mp ⟨_, rfl⟩, ?_⟩
  obtain ⟨m, s, h0, ha, hg, htag, hcont⟩ := hthm.2.1 _ rfl
  exact hcont

/-- C3: for every bundle that decodes to a TaggedBundle whose tag is in the
funneled set, `interpret` recursively interprets each element of `tb.contents`
independently and in original order (the trace is the in-order concatenation
of the contents' traces), and never invokes any handler registered via
on_tbundle for that tag, whether or not one is registered. -/
theorem C3_interpret_funneled_bundle (s : OSCStack) (b : OscBundle) (tb : TaggedBundle)
    (h : TaggedBundle.new b = Except.ok tb)
    (hf : s.tbundle_funnels tb.bundle_tag = true) :
    interpret s (OscPacket.Bundle b) = (tb.contents.map (interpret s)).flatten
  ∧ ∀ tb2, Event.tbundle tb.bundle_tag tb2 ∉ interpret s (OscPacket.Bundle b) := by
  constructor
  · rw [interpret_bundle_ok_eq s h, if_pos hf]
  · intro tb2
    exact funneled_tag_handler_never_invoked s tb.bundle_tag hf
      (sizeOf (OscPacket.Bundle b)) (OscPacket.Bundle b) le_rfl tb2

/-- C3 witness: the funneled dispatch applied to the concrete bundle tagged
"queue" against the concrete stack funneling "queue". -/
theorem C3_witness :
    TaggedBundle.new (exBundle "queue")
      = Except.ok { bundle_tag := "queue", contents := [OscPacket.Message exMsg] }
  ∧ exStack.tbundle_funnels "queue" = true
  ∧ (interpret exStack (OscPacket.Bundle (exBundle "queue"))
      = (([OscPacket.Message exMsg] : List OscPacket).map (interpret exStack)).flatten
     ∧ ∀ tb2, Event.tbundle "queue" tb2 ∉ interpret exStack (OscPacket.Bundle (exBundle "queue"))) :=
  ⟨rfl, rfl,
   C3_interpret_funneled_bundle exStack (exBundle "queue")
     { bundle_tag := "queue", contents := [OscPacket.Message exMsg] } rfl rfl⟩

/-- C4: for every bundle that decodes to a TaggedBundle whose tag is not
funneled, `interpret` invokes the handler registered via on_tbundle for that
tag (if any) exactly once with the TaggedBundle as argument and never
interprets any element of its contents independently; if none is registered,
nothing is invoked: the whole trace is the single tag-handler invocation when
registered and empty when not. -/
theorem C4_interpret_unfunneled_bundle (s : OSCStack) (b : OscBundle) (tb : TaggedBundle)
    (h : TaggedBundle.new b = Except.ok tb)
    (hf : s.tbundle_funnels tb.bundle_tag = false) :
    interpret s (OscPacket.Bundle b) =
      if s.tbundle_operations tb.bundle_tag then [Event.tbundle tb.bundle_tag tb] else [] := by
  rw [interpret_bundle_ok_eq s h, if_neg (by simp [hf])]

/-- C4 witness: the unfunneled dispatch applied to the concrete bundle tagged
"record" (registered handler, tag not funneled). -/
theorem C4_witness :
    TaggedBundle.new (exBundle "record")
      = Except.ok { bundle_tag := "record", contents := [OscPacket.Message exMsg] }
  ∧ exStack.tbundle_funnels "record" = false
  ∧ interpret exStack (OscPacket.Bundle (exBundle "record"))
      = [Event.tbundle "record" { bundle_tag := "record", contents := [OscPacket.Message exMsg] }] := by
  refine ⟨rfl, rfl, ?_⟩
  have h := C4_interpret_unfunneled_bundle exStack (exBundle "record")
    { bundle_tag := "record", contents := [OscPacket.Message exMsg] } rfl rfl
  rw [h, if_pos (by decide)]

/-- C5: for every bundle that `TaggedBundle::new` rejects, `interpret` invokes
no message handler and no bundle handler — the trace is empty — and the packet
is dropped without aborting (`interpret` is total). -/
theorem C5_interpret_undecodable_bundle (s : OSCStack) (b : OscBundle) (e : String)
    (h : TaggedBundle.new b = Except.error e) :
    interpret s (OscPacket.Bundle b) = [] :=
  interpret_bundle_error_eq s h

/-- C5 witness: the empty bundle fails decoding and produces an empty trace. -/
theorem C5_witness :
    TaggedBundle.new (OscBundle.mk (0, 0) []) = Except.error ("Empty bundle")
  ∧ interpret exStack (OscPacket.Bundle (OscBundle.mk (0, 0) [])) = [] :=
  ⟨rfl, C5_interpret_undecodable_bundle exStack (OscBundle.mk (0, 0) []) ("Empty bundle") rfl⟩

/-- C6: `get_varargs(k)` succeeds iff the argument slice from index k onward
(empty when k ≥ length) strictly alternates String, Float, String, Float, ...
starting with String, the empty slice being valid; on success it returns
exactly that slice, and on any element of another type or out of alternation
it returns an error. -/
theorem C6_get_varargs_characterization (m : OscMessage) (k : Nat) :
    ((∃ v, m.get_varargs k = Except.ok v) ↔ AlternatesSF (m.args.drop k))
  ∧ (∀ v, m.get_varargs k = Except.ok v → v = m.args.drop k)
  ∧ (¬ AlternatesSF (m.args.drop k) → ∃ e, m.get_varargs k = Except.error e) := by
  have hdef : m.get_varargs k =
      match validate_args (m.args.drop k) with
      | Except.error e => Except.error e
      | Except.ok _ => Except.ok (m.args.drop k) := by
    unfold OscMessage.get_varargs
    rw [if_slice_eq_drop]
  cases hv : validate_args (m.args.drop k) with
  | ok u =>
    cases u
    have halt := (validate_args_ok_iff (m.args.drop k)).mp hv
    rw [hdef, hv]
    refine ⟨⟨fun _ => halt, fun _ => ⟨_, rfl⟩⟩, ?_, fun hn => absurd halt hn⟩
    intro v hveq
    injection hveq with h2
    exact h2.symm
  | error e =>
    have halt : ¬ AlternatesSF (m.args.drop k) := by
      intro ha
      have hok := (validate_args_ok_iff (m.args.drop k)).mpr ha
      rw [hv] at hok
      exact absurd hok (by simp)
    rw [hdef, hv]
    refine ⟨⟨?_, fun ha => absurd ha halt⟩, ?_, fun _ => ⟨e, rfl⟩⟩
    · rintro ⟨v, hveq⟩
      exact absurd hveq (by simp)
    · intro v hveq
      exact absurd hveq (by simp)

/-- C6 witness: the characterization applied at start index 1 of a message
whose trailing slice is [String "amp", Float 1]. -/
theorem C6_witness :
    OscMessage.get_varargs
        { addr := "/s_new", args := [OscType.Int 1, OscType.String ("amp"), OscType.Float 1] } 1
      = Except.ok [OscType.String ("amp"), OscType.Float 1]
  ∧ [OscType.String ("amp"), OscType.Float 1]
      = ({ addr := "/s_new", args := [OscType.Int 1, OscType.String ("amp"), OscType.Float 1] } : OscMessage).args.drop 1 :=
  ⟨rfl, (C6_get_varargs_characterization
    { addr := "/s_new", args := [OscType.Int 1, OscType.String ("amp"), OscType.Float 1] } 1).2.1 _ rfl⟩

/-- C7: `get_string_at` / `get_float_at` / `get_int_at` succeed iff the
argument at the index exists and its runtime variant matches the requested
kind exactly, with no coercion between kinds; in particular an Int32-typed
argument read via `get_float_at` fails, and every failure is an error
result. -/
theorem C7_typed_accessors_no_coercion (m : OscMessage) (i : Nat) (name : String) :
    ((∃ s, m.get_string_at i name = Except.ok s) ↔ (∃ s, m.args.get? i = some (OscType.String s)))
  ∧ ((∃ f, m.get_float_at i name = Except.ok f) ↔ (∃ f, m.args.get? i = some (OscType.Float f)))
  ∧ ((∃ n, m.get_int_at i name = Except.ok n) ↔ (∃ n, m.args.get? i = some (OscType.Int n)))
  ∧ (∀ n, m.args.get? i = some (OscType.Int n) → ∃ e, m.get_float_at i name = Except.error e) := by
  unfold OscMessage.get_string_at OscMessage.get_float_at OscMessage.get_int_at
  cases ha : m.args.get? i with
  | none => simp
  | some a => cases a <;> simp [OscType.string, OscType.float, OscType.int]

/-- C7 witness: an Int-typed argument read via `get_float_at` fails. -/
theorem C7_witness :
    ({ addr := "/x", args := [OscType.Int 5] } : OscMessage).args.get? 0 = some (OscType.Int 5)
  ∧ ∃ e, OscMessage.get_float_at { addr := "/x", args := [OscType.Int 5] } 0 ("time")
      = Except.error e :=
  ⟨rfl, (C7_typed_accessors_no_coercion
    { addr := "/x", args := [OscType.Int 5] } 0 ("time")).2.2.2 5 rfl⟩

/-- C8: lib.rs `TimedOSCPacket::from_bundle` on TaggedBundle{tag:"timed_msg",
contents:[Message("/timed_msg_info",[2.5]), Packet::Message(msgZ)]} succeeds
and returns TimedOSCPacket{time: 2.5, packet: Packet::Message(msgZ)}.  (This
is the f32-time generation in src/lib.rs, which the scenario's float argument
selects; the model.rs generation instead encodes the time as a string-encoded
decimal — the spec flags the two encodings as a known version divergence.) -/
theorem C8_timed_from_bundle_scenario (msgZ : OscMessage) :
    LibRs.TimedOSCPacket.from_bundle
      { bundle_tag := "timed_msg"
        contents := [OscPacket.Message { addr := "/timed_msg_info", args := [OscType.Float (2.5 : Rat)] },
                     OscPacket.Message msgZ] }
      = Except.ok { time := (2.5 : Rat), packet := OscPacket.Message msgZ } := by
  rfl

/-- C9 (refuting theorem): model.rs `TimedOSCPacket::from_bundle` on a
"timed_msg" TaggedBundle whose time argument is the non-numeric string
"not_a_number" reaches `BigDecimal::from_str(..).unwrap()` with a failed
parse and panics — the outcome is the abort (`none`), not an error result as
the claim requires. -/
theorem C9_from_bundle_panics_on_non_numeric_time :
    TimedOSCPacket.from_bundle
      { bundle_tag := "timed_msg"
        contents := [OscPacket.Message { addr := "/timed_msg_info", args := [OscType.String ("not_a_number")] },
                     OscPacket.Message { addr := "/s_new", args := [] }] }
      = none := by
  rfl

/-- C10: during funneled interpretation the leading element-0 info message is
excluded from `contents` and is never itself interpreted — even when a message
handler is registered for "/bundle_info": the contents are exactly the
elements after the first and the whole trace is the concatenation of those
elements' traces only. -/
theorem C10_funneled_excludes_info_message (s : OSCStack) (b : OscBundle) (tb : TaggedBundle)
    (h : TaggedBundle.new b = Except.ok tb)
    (hf : s.tbundle_funnels tb.bundle_tag = true)
    (hreg : s.message_operations "/bundle_info" = true) :
    tb.contents = b.content.drop 1
  ∧ interpret s (OscPacket.Bundle b) = ((b.content.drop 1).map (interpret s)).flatten := by
  have hc := TaggedBundle.contents_of_new_ok h
  refine ⟨hc, ?_⟩
  rw [interpret_bundle_ok_eq s h, if_pos hf, hc]

/-- C10 witness: the concrete "queue" bundle against the concrete stack, which
registers a message handler under "/bundle_info". -/
theorem C10_witness :
    TaggedBundle.new (exBundle "queue")
      = Except.ok { bundle_tag := "queue", contents := [OscPacket.Message exMsg] }
  ∧ exStack.tbundle_funnels "queue" = true
  ∧ exStack.message_operations "/bundle_info" = true
  ∧ (({ bundle_tag := "queue", contents := [OscPacket.Message exMsg] } : TaggedBundle).contents
      = (exBundle "queue").content.drop 1
     ∧ interpret exStack (OscPacket.Bundle (exBundle "queue"))
        = (((exBundle "queue").content.drop 1).map (interpret exStack)).flatten) :=
  ⟨rfl, rfl, rfl,
   C10_funneled_excludes_info_message exStack (exBundle "queue")
     { bundle_tag := "queue", contents := [OscPacket.Message exMsg] } rfl rfl rfl⟩
